import Mathlib

/-!
# Verification of the trusted-collab-worker response pipeline

Shallow embedding of src/trusted-collab-worker.js: a Cloudflare Worker that
classifies request paths (LLM endpoint / sitemap / manifest), optionally
gates LLM requests behind an API-key check, forwards to the origin, rewrites
caching headers, injects canonical/terms/payment Link relations, and attaches
an HMAC-SHA256-signed AI-Usage-Receipt header.

Modelling conventions:
* A JS Headers object is a list of (name, value) pairs; all operations compare
  names case-insensitively (JS Headers lower-cases names on storage; we keep
  the stored name and lower-case at every comparison, which is observably the
  same). `hget` joins multiple values with ", " exactly as Headers.get does.
* The origin fetch and the clock are injected: the pipeline is a function of
  (request, env, origin response, timestamp). `FetchOutcome.originCalled`
  records whether the origin fetch was reached (the 401 short-circuit skips it).
* JS strings are Lean Strings; response bodies are byte lists (List Nat);
  `crypto.subtle` HMAC-SHA256 and `btoa` are given their standard definitions
  (FIPS 180-4 / FIPS 198-1 / RFC 4648) over Nat arithmetic mod 2^32.
* The regular expressions of the source are modelled by dedicated matchers:
  `isLLMPath` for /\/llm\/?$/, `stripLLM` for the anchored
  `pathname.replace(/\/?llm\/?$/, '/')` (leftmost match of one of the four
  possible end-anchored shapes), and `relSearch` for the relation-detection
  patterns /;\s*rel=\"?word/i (JS \s restricted to ASCII whitespace).
-/

/-- ASCII lower-casing of a string, as JS toLowerCase acts on the ASCII header
names and schemes this worker handles. -/
def lowerStr (s : String) : String := ⟨s.data.map Char.toLower⟩

/-- JS String.startsWith. -/
def strStartsWith (s t : String) : Bool := s.data.take t.data.length == t.data

/-- JS-style endsWith (also RegExp end anchoring): t is a suffix of s. -/
def strEndsWith (s t : String) : Bool := s.data.reverse.take t.data.length == t.data.reverse

/-- One HTTP header map: a list of (name, value) entries, as in a JS
Headers object. -/
abbrev HeaderList : Type := List (String × String)

/-- The values stored under a (case-insensitive) header name, in list order. -/
def valuesOf (h : HeaderList) (name : String) : List String :=
  (List.filter (fun p => lowerStr p.1 == lowerStr name) h).map Prod.snd

/-- How JS Headers.get joins several entries of the same name. -/
def joinVals : List String → String
  | [] => ""
  | [v] => v
  | v :: rest => v ++ ", " ++ joinVals rest

/-- JS Headers.get: null when the name is absent, otherwise the values joined
with ", ". -/
def hget (h : HeaderList) (name : String) : Option String :=
  match valuesOf h name with
  | [] => none
  | vs => some (joinVals vs)

/-- JS Headers.delete: removes every entry with the given name. -/
def hdelete (h : HeaderList) (name : String) : HeaderList :=
  List.filter (fun p => !(lowerStr p.1 == lowerStr name)) h

/-- JS Headers.set: replace the first entry with the name (keeping its
position), drop later ones; append at the end when absent. -/
def hset : HeaderList → String → String → HeaderList
  | [], k, v => [(k, v)]
  | (n, w) :: t, k, v =>
    if lowerStr n == lowerStr k then (n, v) :: hdelete t k else (n, w) :: hset t k v

/-- JS Headers.append: adds one more entry at the end of the list. -/
def happend (h : HeaderList) (name v : String) : HeaderList :=
  h ++ [(name, v)]

/-- ASCII whitespace, the fragment of JS regex \s the worker's headers can
contain. -/
def isJsWS (c : Char) : Bool :=
  c == ' ' || c == '\t' || c == '\n' || c == '\r' || c == '\x0b' || c == '\x0c'

/-- Case-insensitive prefix match of a (lower-case) pattern word against an
input character list. -/
def matchWordCI : List Char → List Char → Bool
  | [], _ => true
  | _ :: _, [] => false
  | p :: ps, c :: cs => p == c.toLower && matchWordCI ps cs

/-- After the ';' and the whitespace of /;\s*rel=\"?w/i : expect "rel=", then an
optional '"' (with regex backtracking), then one of the pattern words. -/
def relAfterWS (words : List (List Char)) (cs : List Char) : Bool :=
  matchWordCI ['r', 'e', 'l', '='] cs &&
    ((match cs.drop 4 with
      | c :: t => c == '"' && words.any (fun w => matchWordCI w t)
      | [] => false)
     || words.any (fun w => matchWordCI w (cs.drop 4)))

/-- Does /;\s*rel=\"?w/i match at this exact position? -/
def relMatchAt (words : List (List Char)) : List Char → Bool
  | c :: t => c == ';' && relAfterWS words (t.dropWhile isJsWS)
  | [] => false

/-- Does /;\s*rel=\"?w/i match anywhere in the character list? -/
def relSearch (words : List (List Char)) : List Char → Bool
  | [] => false
  | c :: cs => relMatchAt words (c :: cs) || relSearch words cs

/-- RegExp.test of /;\s*rel=\"?w/i (for one of several alternative words) on a
string, as the worker uses for canonical / terms / pricing|payment detection. -/
def relTestStr (words : List String) (s : String) : Bool :=
  relSearch (words.map String.data) s.data

/-- /\/llm\/?$/.test(pathname): the path ends with "/llm" or "/llm/". -/
def isLLMPath (p : String) : Bool :=
  strEndsWith p "/llm" || strEndsWith p "/llm/"

/-- pathname.replace(/\/?llm\/?$/, '/'): the regex is end-anchored, so the only
possible matches are the suffixes "/llm/", "llm/", "/llm", "llm"; JS replace
takes the leftmost (hence longest-reaching-back) one and replaces it by "/". -/
def stripLLM (p : String) : String :=
  if strEndsWith p "/llm/" then p.dropRight 5 ++ "/"
  else if strEndsWith p "llm/" then p.dropRight 4 ++ "/"
  else if strEndsWith p "/llm" then p.dropRight 4 ++ "/"
  else if strEndsWith p "llm" then p.dropRight 3 ++ "/"
  else p

/-- JS truthiness of an optional string env binding (absent and "" are falsy). -/
def truthy (o : Option String) : Bool := !(o.getD "" == "")

/-- JS `a || b` for an optional string with a string default. -/
def jsOr (o : Option String) (d : String) : String :=
  if truthy o then o.getD "" else d

/-- JS parseInt(s, 10): skip leading whitespace, optional sign, then leading
decimal digits; NaN (none) when no digit follows. -/
def parseIntJS (s : String) : Option Int :=
  let cs := s.data.dropWhile isJsWS
  let signed : Int × List Char :=
    match cs with
    | '-' :: t => (-1, t)
    | '+' :: t => (1, t)
    | t => (1, t)
  let digits := signed.2.takeWhile Char.isDigit
  if digits.isEmpty then none
  else some (signed.1 * (Int.ofNat (digits.foldl (fun a c => a * 10 + (c.toNat - 48)) 0)))

/-- String with every CR and LF removed: etag.replace(/\r|\n/g, ''). -/
def stripCRLF (s : String) : String :=
  ⟨s.data.filter (fun c => !(c == '\r' || c == '\n'))⟩

/-- String with every double quote removed: etag.replace(/"/g, ''). -/
def stripQuotes (s : String) : String :=
  ⟨s.data.filter (fun c => !(c == '"'))⟩

/-- The incoming request: URL parts plus request headers. -/
structure Request where
  protocol : String
  host : String
  pathname : String
  headers : HeaderList

/-- The worker's configuration bindings (all optional strings). -/
structure Env where
  AUTH_MODE : Option String := none
  API_KEYS : Option String := none
  TERMS_URL : Option String := none
  PRICING_URL : Option String := none
  RECEIPT_HMAC_KEY : Option String := none
  SITEMAP_PATH : Option String := none
  MANIFEST_PATH : Option String := none

/-- An HTTP response: status, status text, headers, body bytes. Used both for
the origin response and for the worker's final response. -/
structure HttpResponse where
  status : Nat
  statusText : String
  headers : HeaderList
  body : List Nat

/-- The result of one worker invocation: the response returned to the client
and whether the origin fetch was performed. -/
structure FetchOutcome where
  response : HttpResponse
  originCalled : Bool

/-- The credential extracted from the Authorization header: the remainder after
a case-insensitive "Bearer " prefix, else "". -/
def bearerCred (req : Request) : String :=
  let auth := (hget req.headers "authorization").getD ""
  if strStartsWith (lowerStr auth) "bearer " then auth.drop 7 else ""

/-- The X-API-Key request header value (or ""). -/
def xApiKey (req : Request) : String :=
  (hget req.headers "x-api-key").getD ""

/-- JS String.split(','): every comma is a separator; "" yields [""]. -/
def splitCommaCore : List Char → List Char → List String
  | [], acc => [String.mk acc.reverse]
  | c :: t, acc =>
    if c == ',' then String.mk acc.reverse :: splitCommaCore t []
    else splitCommaCore t (c :: acc)

/-- JS String.split(',') on a string. -/
def splitComma (s : String) : List String := splitCommaCore s.data []

/-- JS String.trim restricted to ASCII whitespace: strip it from both ends. -/
def trimStr (s : String) : String :=
  ⟨((s.data.dropWhile isJsWS).reverse.dropWhile isJsWS).reverse⟩

/-- (env.API_KEYS || '').split(',').map(s => s.trim()).filter(Boolean). -/
def allowKeys (env : Env) : List String :=
  ((splitComma (env.API_KEYS.getD "")).map trimStr).filter (fun s => !(s == ""))

/-- The guard's `ok` boolean: a non-empty credential that is literally in the
allow-list (no trimming of the credential itself). -/
def authOk (req : Request) (env : Env) : Bool :=
  (!(bearerCred req == "") && (allowKeys env).contains (bearerCred req))
    || (!(xApiKey req == "") && (allowKeys env).contains (xApiKey req))

/-- Does the access guard short-circuit the request with a 401? -/
def authRejects (req : Request) (env : Env) : Bool :=
  isLLMPath req.pathname && (env.AUTH_MODE == some "api_key") && !authOk req env

/-- new Response('', { status: 401, headers: { 'WWW-Authenticate': 'Bearer realm="tct"' } }). -/
def unauthorizedResponse : HttpResponse :=
  { status := 401, statusText := "", headers := [("WWW-Authenticate", "Bearer realm=\"tct\"")],
    body := [] }

/-- The fixed Cache-Control directive the worker forces on classified paths. -/
def ccFixed : String :=
  "max-age=0, must-revalidate, stale-while-revalidate=60, stale-if-error=86400, public"

/-- The Header Normalizer: overwrite Cache-Control, delete Pragma, Expires and
X-LiteSpeed-Cache-Control. -/
def normalizeHeaders (h : HeaderList) : HeaderList :=
  hdelete (hdelete (hdelete (hset h "Cache-Control" ccFixed) "Pragma") "Expires")
    "X-LiteSpeed-Cache-Control"

/-- The canonical URI: scheme + "//" + host + path with the trailing llm
segment replaced by "/". -/
def canonicalUrl (req : Request) : String :=
  req.protocol ++ "//" ++ req.host ++ stripLLM req.pathname

/-- The Link entry the injector appends for the canonical relation. -/
def canonicalEntry (req : Request) : String :=
  "<" ++ canonicalUrl req ++ ">; rel=\"canonical\""

/-- The Link entry appended for the terms-of-service relation. -/
def termsEntry (u : String) : String := "<" ++ u ++ ">; rel=\"terms-of-service\""

/-- The Link entry appended for the payment relation. -/
def paymentEntry (u : String) : String := "<" ++ u ++ ">; rel=\"payment\""

/-- Append the canonical entry unless the canonical pattern already matches
the current Link value. -/
def injectCanonical (req : Request) (h : HeaderList) : HeaderList :=
  if relTestStr ["canonical"] ((hget h "Link").getD "") then h
  else happend h "Link" (canonicalEntry req)

/-- Append the terms entry when TERMS_URL is truthy and the terms pattern does
not match the given (once re-read) Link value. -/
def injectTerms (env : Env) (link1 : String) (h : HeaderList) : HeaderList :=
  if truthy env.TERMS_URL && !relTestStr ["terms"] link1 then
    happend h "Link" (termsEntry (env.TERMS_URL.getD ""))
  else h

/-- Append the payment entry when PRICING_URL is truthy and the
pricing/payment pattern does not match the given (once re-read) Link value. -/
def injectPayment (env : Env) (link1 : String) (h : HeaderList) : HeaderList :=
  if truthy env.PRICING_URL && !relTestStr ["pricing", "payment"] link1 then
    happend h "Link" (paymentEntry (env.PRICING_URL.getD ""))
  else h

/-- The Link Injector: add a canonical entry when none is detected; the terms
and payment checks both run against the Link value re-read once after that
possible append (the source re-reads `link` a single time, at line 49). -/
def injectLinks (req : Request) (env : Env) (h : HeaderList) : HeaderList :=
  let h1 := injectCanonical req h
  let link1 := (hget h1 "Link").getD ""
  injectPayment env link1 (injectTerms env link1 h1)

/-- The receipt's byte count: 0 on 304; on 200 the parsed Content-Length when
the header is truthy (0 when parsing fails), else the buffered body length;
0 for every other status. -/
def receiptBytes (origin : HttpResponse) (h : HeaderList) : Int :=
  if origin.status == 304 then 0
  else if origin.status == 200 then
    let cl := (hget h "Content-Length").getD ""
    if cl == "" then Int.ofNat origin.body.length
    else (parseIntJS cl).getD 0
  else 0

/-- The receipt payload string, in the exact literal format of the source. -/
def receiptPayload (req : Request) (origin : HttpResponse) (h : HeaderList) (ts : String) :
    String :=
  let etag := stripCRLF ((hget h "ETag").getD "")
  let contract := (hget req.headers "X-AI-Contract").getD ""
  "contract=" ++ contract ++ "; status=" ++ toString origin.status ++ "; bytes=" ++
    toString (receiptBytes origin h) ++ "; etag=\"" ++ stripQuotes etag ++ "\"; ts=" ++ ts

/-- Reduction modulo 2^32, the word size of SHA-256. -/
def w32 (n : Nat) : Nat := n % 4294967296

/-- 32-bit right rotation (on a word already reduced mod 2^32). -/
def rotr32 (x n : Nat) : Nat := w32 (x / 2 ^ n + x % 2 ^ n * 2 ^ (32 - n))

/-- 32-bit logical right shift. -/
def shr32 (x n : Nat) : Nat := x / 2 ^ n

/-- FIPS 180-4 Sigma0. -/
def bsig0 (x : Nat) : Nat := rotr32 x 2 ^^^ rotr32 x 13 ^^^ rotr32 x 22

/-- FIPS 180-4 Sigma1. -/
def bsig1 (x : Nat) : Nat := rotr32 x 6 ^^^ rotr32 x 11 ^^^ rotr32 x 25

/-- FIPS 180-4 sigma0. -/
def ssig0 (x : Nat) : Nat := rotr32 x 7 ^^^ rotr32 x 18 ^^^ shr32 x 3

/-- FIPS 180-4 sigma1. -/
def ssig1 (x : Nat) : Nat := rotr32 x 17 ^^^ rotr32 x 19 ^^^ shr32 x 10

/-- FIPS 180-4 Ch; the complement of a reduced word is its xor with 2^32-1. -/
def chF (x y z : Nat) : Nat := (x &&& y) ^^^ ((x ^^^ 4294967295) &&& z)

/-- FIPS 180-4 Maj. -/
def majF (x y z : Nat) : Nat := (x &&& y) ^^^ (x &&& z) ^^^ (y &&& z)

/-- The 64 SHA-256 round constants. -/
def shaK : List Nat :=
  [1116352408, 1899447441, 3049323471, 3921009573, 961987163, 1508970993, 2453635748, 2870763221,
   3624381080, 310598401, 607225278, 1426881987, 1925078388, 2162078206, 2614888103, 3248222580,
   3835390401, 4022224774, 264347078, 604807628, 770255983, 1249150122, 1555081692, 1996064986,
   2554220882, 2821834349, 2952996808, 3210313671, 3336571891, 3584528711, 113926993, 338241895,
   666307205, 773529912, 1294757372, 1396182291, 1695183700, 1986661051, 2177026350, 2456956037,
   2730485921, 2820302411, 3259730800, 3345764771, 3516065817, 3600352804, 4094571909, 275423344,
   430227734, 506948616, 659060556, 883997877, 958139571, 1322822218, 1537002063, 1747873779,
   1955562222, 2024104815, 2227730452, 2361852424, 2428436474, 2756734187, 3204031479, 3329325298]

/-- The initial SHA-256 hash state. -/
def shaH0 : List Nat :=
  [1779033703, 3144134277, 1013904242, 2773480762, 1359893119, 2600822924, 528734635, 1541459225]

/-- A 32-bit word as four big-endian bytes. -/
def be32 (n : Nat) : List Nat := [n / 16777216 % 256, n / 65536 % 256, n / 256 % 256, n % 256]

/-- A 64-bit value as eight big-endian bytes. -/
def be64 (n : Nat) : List Nat :=
  [n / 72057594037927936 % 256, n / 281474976710656 % 256, n / 1099511627776 % 256,
   n / 4294967296 % 256, n / 16777216 % 256, n / 65536 % 256, n / 256 % 256, n % 256]

/-- SHA-256 message padding: 0x80, zeros to 56 mod 64, then the bit length. -/
def padMsg (m : List Nat) : List Nat :=
  m ++ 128 :: List.replicate ((64 - (m.length + 9) % 64) % 64) 0 ++ be64 (8 * m.length)

/-- Split a byte list into 64-byte blocks (fuel-driven; one unit of fuel per
block suffices since every block consumes at least one byte). -/
def chunks64Go : Nat → List Nat → List (List Nat)
  | _, [] => []
  | 0, _ => []
  | Nat.succ f, l => l.take 64 :: chunks64Go f (l.drop 64)

/-- Split a byte list into 64-byte blocks. -/
def chunks64 (l : List Nat) : List (List Nat) := chunks64Go l.length l

/-- Four consecutive big-endian bytes to one 32-bit word, over a block. -/
def toWords : List Nat → List Nat
  | a :: b :: c :: d :: rest => (a * 16777216 + b * 65536 + c * 256 + d) :: toWords rest
  | _ => []

/-- The next word of the SHA-256 message schedule. -/
def nextW (ws : List Nat) : Nat :=
  w32 (ssig1 (ws.getD (ws.length - 2) 0) + ws.getD (ws.length - 7) 0 +
    ssig0 (ws.getD (ws.length - 15) 0) + ws.getD (ws.length - 16) 0)

/-- Extend the message schedule by the given number of words. -/
def extendW : List Nat → Nat → List Nat
  | ws, 0 => ws
  | ws, Nat.succ k => extendW (ws ++ [nextW ws]) k

/-- One SHA-256 round on the eight-word working state. -/
def roundStep (st : List Nat) (kw : Nat × Nat) : List Nat :=
  match st with
  | [a, b, c, d, e, f, g, h] =>
    let t1 := w32 (h + bsig1 e + chF e f g + kw.1 + kw.2)
    let t2 := w32 (bsig0 a + majF a b c)
    [w32 (t1 + t2), a, b, c, w32 (d + t1), e, f, g]
  | other => other

/-- The SHA-256 compression function on one 64-byte block. -/
def compress (hs : List Nat) (block : List Nat) : List Nat :=
  let ws := extendW (toWords block) 48
  let st := (shaK.zip ws).foldl roundStep hs
  (hs.zip st).map (fun p => w32 (p.1 + p.2))

/-- SHA-256 of a byte list, as 32 bytes. -/
def sha256 (msg : List Nat) : List Nat :=
  (((chunks64 (padMsg msg)).foldl compress shaH0).map be32).flatten

/-- FIPS 198-1 HMAC-SHA256 with a 64-byte block size. -/
def hmacSha256 (key msg : List Nat) : List Nat :=
  let k0 := if 64 < key.length then sha256 key else key
  let k1 := k0 ++ List.replicate (64 - k0.length) 0
  sha256 ((k1.map (fun b => b ^^^ 92)) ++ sha256 ((k1.map (fun b => b ^^^ 54)) ++ msg))

/-- The standard base64 alphabet. -/
def b64Chars : List Char :=
  "ABCDEFGHIJKLMNOPQRSTUVWXYZabcdefghijklmnopqrstuvwxyz0123456789+/".data

/-- The base64 digit for a 6-bit value. -/
def b64c (n : Nat) : Char := b64Chars.getD n 'A'

/-- RFC 4648 base64 (standard alphabet, '=' padding), as btoa produces over a
byte string. -/
def base64Encode : List Nat → String
  | [] => ""
  | [a] => String.mk [b64c (a / 4), b64c (a % 4 * 16)] ++ "=="
  | [a, b] => String.mk [b64c (a / 4), b64c (a % 4 * 16 + b / 16), b64c (b % 16 * 4)] ++ "="
  | a :: b :: c :: rest =>
    String.mk [b64c (a / 4), b64c (a % 4 * 16 + b / 16), b64c (b % 16 * 4 + c / 64), b64c (c % 64)]
      ++ base64Encode rest

/-- UTF-8 bytes of one code point, as TextEncoder emits. -/
def utf8Char (n : Nat) : List Nat :=
  if n < 128 then [n]
  else if n < 2048 then [192 + n / 64, 128 + n % 64]
  else if n < 65536 then [224 + n / 4096, 128 + n / 64 % 64, 128 + n % 64]
  else [240 + n / 262144, 128 + n / 4096 % 64, 128 + n / 64 % 64, 128 + n % 64]

/-- TextEncoder().encode: the UTF-8 bytes of a string. -/
def strBytes (s : String) : List Nat := (s.data.map (fun c => utf8Char c.toNat)).flatten

/-- The worker's hmacB64: HMAC-SHA256 of the payload keyed by the secret,
base64-encoded. -/
def hmacB64 (payload key : String) : String :=
  base64Encode (hmacSha256 (strBytes key) (strBytes payload))

/-- The Receipt Signer's header value: payload, then "; sig=", then the
signature. -/
def receiptValue (req : Request) (env : Env) (origin : HttpResponse) (h : HeaderList)
    (ts : String) : String :=
  let payload := receiptPayload req origin h ts
  payload ++ "; sig=" ++ hmacB64 payload (env.RECEIPT_HMAC_KEY.getD "")

/-- The pipeline after the access guard: forward, normalize, inject links,
sign the receipt, return. -/
def mainPipeline (req : Request) (env : Env) (origin : HttpResponse) (ts : String) :
    HttpResponse :=
  let isLLME := isLLMPath req.pathname
  let isSitemap := req.pathname == jsOr env.SITEMAP_PATH "/llm-sitemap.json"
  let isManifest := req.pathname == jsOr env.MANIFEST_PATH "/llms.txt"
  let h1 := if isLLME || isSitemap || isManifest then normalizeHeaders origin.headers
            else origin.headers
  let h2 := if isLLME then injectLinks req env h1 else h1
  let h3 := if isLLME && truthy env.RECEIPT_HMAC_KEY then
              hset h2 "AI-Usage-Receipt" (receiptValue req env origin h2 ts)
            else h2
  { status := origin.status, statusText := origin.statusText, headers := h3,
    body := origin.body }

/-- One invocation of the worker's fetch handler, with the origin response and
the signing-time timestamp injected. -/
def workerFetch (req : Request) (env : Env) (origin : HttpResponse) (ts : String) :
    FetchOutcome :=
  if authRejects req env then { response := unauthorizedResponse, originCalled := false }
  else { response := mainPipeline req env origin ts, originCalled := true }

/-- The number of Link header entries matching the worker's canonical-relation
pattern. -/
def canonicalLinkCount (h : HeaderList) : Nat :=
  ((valuesOf h "Link").filter (fun v => relTestStr ["canonical"] v)).length

/-! ## Concrete requests, environments and origin responses used to
instantiate the claim theorems -/

/-- A signed-receipt scenario: LLM path, contract header. -/
def c1Req : Request :=
  { protocol := "https:"
    host := "example.com"
    pathname := "/post/llm/"
    headers := [("x-ai-contract", "pilotX")] }

/-- Signing key configured. -/
def c1Env : Env := { RECEIPT_HMAC_KEY := some "testkey" }

/-- A 200 origin response with Content-Length 100 and ETag "abc". -/
def c1Origin : HttpResponse :=
  { status := 200
    statusText := "OK"
    headers := [("Content-Length", "100"), ("ETag", "\"abc\"")]
    body := [] }

/-- An Authorization header whose bearer remainder has a leading space. -/
def c2Req : Request :=
  { protocol := "https:"
    host := "example.com"
    pathname := "/x/llm"
    headers := [("authorization", "Bearer  key1")] }

/-- API-key mode with allow-list key1. -/
def c2Env : Env :=
  { AUTH_MODE := some "api_key"
    API_KEYS := some "key1" }

/-- A matching bearer credential for the amended guard theorem's witness. -/
def c2wReq : Request :=
  { protocol := "https:"
    host := "example.com"
    pathname := "/x/llm"
    headers := [("authorization", "Bearer key1")] }

/-- A plain origin response. -/
def cOrigin : HttpResponse :=
  { status := 200
    statusText := "OK"
    headers := [("ETag", "\"e1\"")]
    body := [10, 20] }

/-- A credential-free request to an LLM path. -/
def c3Req : Request :=
  { protocol := "https:"
    host := "example.com"
    pathname := "/a/llm"
    headers := [] }

/-- A 200 origin response whose Content-Length is present but unparseable. -/
def c4Origin : HttpResponse :=
  { status := 200
    statusText := "OK"
    headers := [("Content-Length", "abc")]
    body := [1, 2, 3, 4, 5] }

/-- LLM request for the byte-count scenarios. -/
def c4Req : Request :=
  { protocol := "https:"
    host := "example.com"
    pathname := "/p/llm"
    headers := [] }

/-- Policy links configured alongside the signing key. -/
def c5Env : Env :=
  { TERMS_URL := some "https://example.com/ai-policy"
    PRICING_URL := some "https://example.com/ai-pricing" }

/-- An origin response carrying no Link header at all. -/
def c5Origin : HttpResponse :=
  { status := 200
    statusText := "OK"
    headers := [("Content-Type", "text/plain")]
    body := [] }

/-- An origin response that already carries two canonical Link entries. -/
def c6Origin : HttpResponse :=
  { status := 200
    statusText := "OK"
    headers := [("Link", "<https://a.example/>; rel=\"canonical\""),
      ("Link", "<https://b.example/>; rel=\"canonical\"")]
    body := [] }

/-- An origin response that already carries one canonical Link entry. -/
def c6wOrigin : HttpResponse :=
  { status := 200
    statusText := "OK"
    headers := [("Link", "<https://c.example/>; rel=\"canonical\"")]
    body := [] }

/-- A request for the sitemap path (default configuration). -/
def c7Req : Request :=
  { protocol := "https:"
    host := "example.com"
    pathname := "/llm-sitemap.json"
    headers := [] }

/-- An origin response full of cache noise. -/
def c7Origin : HttpResponse :=
  { status := 200
    statusText := "OK"
    headers := [("Cache-Control", "private, no-store"), ("Pragma", "no-cache"),
      ("Expires", "0"), ("X-LiteSpeed-Cache-Control", "no-cache")]
    body := [] }

/-- A 304 origin response that still carries a Content-Length. -/
def c8Origin : HttpResponse :=
  { status := 304
    statusText := "Not Modified"
    headers := [("Content-Length", "999"), ("ETag", "\"e\"")]
    body := [] }

/-- An entirely default environment. -/
def cEnvEmpty : Env := {}

/-- A request for an unclassified path. -/
def c9Req : Request :=
  { protocol := "https:"
    host := "example.com"
    pathname := "/normal/page"
    headers := [] }

/-- A 503 origin response for the all-statuses receipt theorem's witness. -/
def c10Origin : HttpResponse :=
  { status := 503
    statusText := "Service Unavailable"
    headers := [("Content-Length", "44")]
    body := [9, 9] }

/-! ## Test vectors pinning the cryptographic layer to its standards -/

/-- FIPS 180-4 vector: SHA-256 of the empty message. -/
theorem sha256_vector_empty :
    sha256 [] = [227, 176, 196, 66, 152, 252, 28, 20, 154, 251, 244, 200, 153, 111, 185, 36,
      39, 174, 65, 228, 100, 155, 147, 76, 164, 149, 153, 27, 120, 82, 184, 85] := by
  decide

/-- FIPS 180-4 vector: SHA-256 of "abc". -/
theorem sha256_vector_abc :
    sha256 (strBytes "abc") = [186, 120, 22, 191, 143, 1, 207, 234, 65, 65, 64, 222, 93, 174,
      34, 35, 176, 3, 97, 163, 150, 23, 122, 156, 180, 16, 255, 97, 242, 0, 21, 173] := by
  decide

set_option maxRecDepth 40000 in
/-- RFC 4231 test case 2 for HMAC-SHA256, through the worker's base64 path. -/
theorem hmacB64_vector_rfc4231 :
    hmacB64 "what do ya want for nothing?" "Jefe" =
      "W9zBRr9gdU5qBCQmCJV1x1oAPwidJzmDnexYuWTsOEM=" := by
  decide

/-- RFC 4648 padding behavior of the base64 encoder. -/
theorem base64_vectors :
    base64Encode [77, 97, 110] = "TWFu" ∧ base64Encode [77, 97] = "TWE=" ∧
      base64Encode [77] = "TQ==" := by
  decide

/-! ## Header-map lemmas -/

theorem valuesOf_cons (p : String × String) (h : HeaderList) (n : String) :
    valuesOf (p :: h) n =
      if lowerStr p.1 == lowerStr n then p.2 :: valuesOf h n else valuesOf h n := by
  by_cases hc : lowerStr p.1 = lowerStr n
  · simp [valuesOf, List.filter_cons, hc]
  · simp [valuesOf, List.filter_cons, hc]

theorem valuesOf_hdelete_self (h : HeaderList) (k n : String) (hk : lowerStr k = lowerStr n) :
    valuesOf (hdelete h k) n = [] := by
  induction h with
  | nil => rfl
  | cons p t ih =>
    by_cases hp : lowerStr p.1 = lowerStr k
    · simp only [hdelete, List.filter_cons] at ih ⊢
      simp [hp, ih]
    · have hpn : lowerStr p.1 ≠ lowerStr n := hk ▸ hp
      simp only [hdelete, List.filter_cons] at ih ⊢
      simp [hp, valuesOf_cons, hpn, ih]

theorem valuesOf_hdelete_ne (h : HeaderList) (k n : String) (hk : lowerStr k ≠ lowerStr n) :
    valuesOf (hdelete h k) n = valuesOf h n := by
  induction h with
  | nil => rfl
  | cons p t ih =>
    by_cases hp : lowerStr p.1 = lowerStr k
    · have hpn : lowerStr p.1 ≠ lowerStr n := by rw [hp]; exact hk
      simp only [hdelete, List.filter_cons] at ih ⊢
      simp [hp, valuesOf_cons, hpn, hk, ih]
    · simp only [hdelete, List.filter_cons] at ih ⊢
      simp [hp, valuesOf_cons, ih]

theorem valuesOf_hset_ne (h : HeaderList) (k v n : String) (hk : lowerStr k ≠ lowerStr n) :
    valuesOf (hset h k v) n = valuesOf h n := by
  induction h with
  | nil => simp [hset, valuesOf_cons, hk]
  | cons p t ih =>
    by_cases hp : lowerStr p.1 = lowerStr k
    · have hpn : lowerStr p.1 ≠ lowerStr n := by rw [hp]; exact hk
      simp [hset, hp, valuesOf_cons, hpn, hk, valuesOf_hdelete_ne t k n hk]
    · simp [hset, hp, valuesOf_cons, ih]

theorem valuesOf_hset_self (h : HeaderList) (k v n : String) (hk : lowerStr k = lowerStr n) :
    valuesOf (hset h k v) n = [v] := by
  induction h with
  | nil => simp [hset, valuesOf_cons, hk]; rfl
  | cons p t ih =>
    by_cases hp : lowerStr p.1 = lowerStr k
    · have hpn : lowerStr p.1 = lowerStr n := by rw [hp]; exact hk
      simp [hset, hp, valuesOf_cons, hpn, hk, valuesOf_hdelete_self t k n hk]
    · have hpn : lowerStr p.1 ≠ lowerStr n := by rw [← hk]; exact hp
      simp [hset, hp, valuesOf_cons, hpn, ih]

theorem valuesOf_happend_ne (h : HeaderList) (k v n : String) (hk : lowerStr k ≠ lowerStr n) :
    valuesOf (happend h k v) n = valuesOf h n := by
  simp [happend, valuesOf, List.filter_append, hk]

theorem valuesOf_happend_self (h : HeaderList) (k v n : String) (hk : lowerStr k = lowerStr n) :
    valuesOf (happend h k v) n = valuesOf h n ++ [v] := by
  simp [happend, valuesOf, List.filter_append, hk]

theorem hget_eq_none_iff (h : HeaderList) (n : String) :
    hget h n = none ↔ valuesOf h n = [] := by
  cases hv : valuesOf h n <;> simp [hget, hv]

theorem hget_eq_join (h : HeaderList) (n : String) (hv : valuesOf h n ≠ []) :
    hget h n = some (joinVals (valuesOf h n)) := by
  cases hv2 : valuesOf h n with
  | nil => exact absurd hv2 hv
  | cons a t => simp [hget, hv2]

theorem hget_hset_ne (h : HeaderList) (k v n : String) (hk : lowerStr k ≠ lowerStr n) :
    hget (hset h k v) n = hget h n := by
  unfold hget
  rw [valuesOf_hset_ne h k v n hk]

theorem hget_hset_self (h : HeaderList) (k v n : String) (hk : lowerStr k = lowerStr n) :
    hget (hset h k v) n = some v := by
  unfold hget
  rw [valuesOf_hset_self h k v n hk]
  rfl

theorem hget_hdelete_ne (h : HeaderList) (k n : String) (hk : lowerStr k ≠ lowerStr n) :
    hget (hdelete h k) n = hget h n := by
  unfold hget
  rw [valuesOf_hdelete_ne h k n hk]

theorem hget_hdelete_self (h : HeaderList) (k n : String) (hk : lowerStr k = lowerStr n) :
    hget (hdelete h k) n = none := by
  unfold hget
  rw [valuesOf_hdelete_self h k n hk]

theorem hget_happend_ne (h : HeaderList) (k v n : String) (hk : lowerStr k ≠ lowerStr n) :
    hget (happend h k v) n = hget h n := by
  unfold hget
  rw [valuesOf_happend_ne h k v n hk]

/-! ## Preservation lemmas through the pipeline stages -/

theorem hget_normalize_ne (h : HeaderList) (n : String)
    (h1 : lowerStr "Cache-Control" ≠ lowerStr n) (h2 : lowerStr "Pragma" ≠ lowerStr n)
    (h3 : lowerStr "Expires" ≠ lowerStr n)
    (h4 : lowerStr "X-LiteSpeed-Cache-Control" ≠ lowerStr n) :
    hget (normalizeHeaders h) n = hget h n := by
  unfold normalizeHeaders
  rw [hget_hdelete_ne _ _ _ h4, hget_hdelete_ne _ _ _ h3, hget_hdelete_ne _ _ _ h2,
    hget_hset_ne _ _ _ _ h1]

theorem valuesOf_normalize_ne (h : HeaderList) (n : String)
    (h1 : lowerStr "Cache-Control" ≠ lowerStr n) (h2 : lowerStr "Pragma" ≠ lowerStr n)
    (h3 : lowerStr "Expires" ≠ lowerStr n)
    (h4 : lowerStr "X-LiteSpeed-Cache-Control" ≠ lowerStr n) :
    valuesOf (normalizeHeaders h) n = valuesOf h n := by
  unfold normalizeHeaders
  rw [valuesOf_hdelete_ne _ _ _ h4, valuesOf_hdelete_ne _ _ _ h3, valuesOf_hdelete_ne _ _ _ h2,
    valuesOf_hset_ne _ _ _ _ h1]

theorem hget_injectCanonical_ne (req : Request) (h : HeaderList) (n : String)
    (hn : lowerStr "Link" ≠ lowerStr n) :
    hget (injectCanonical req h) n = hget h n := by
  unfold injectCanonical
  split
  · rfl
  · exact hget_happend_ne _ _ _ _ hn

theorem hget_injectTerms_ne (env : Env) (link1 : String) (h : HeaderList) (n : String)
    (hn : lowerStr "Link" ≠ lowerStr n) :
    hget (injectTerms env link1 h) n = hget h n := by
  unfold injectTerms
  split
  · exact hget_happend_ne _ _ _ _ hn
  · rfl

theorem hget_injectPayment_ne (env : Env) (link1 : String) (h : HeaderList) (n : String)
    (hn : lowerStr "Link" ≠ lowerStr n) :
    hget (injectPayment env link1 h) n = hget h n := by
  unfold injectPayment
  split
  · exact hget_happend_ne _ _ _ _ hn
  · rfl

theorem hget_injectLinks_ne (req : Request) (env : Env) (h : HeaderList) (n : String)
    (hn : lowerStr "Link" ≠ lowerStr n) :
    hget (injectLinks req env h) n = hget h n := by
  simp only [injectLinks]
  rw [hget_injectPayment_ne _ _ _ _ hn, hget_injectTerms_ne _ _ _ _ hn,
    hget_injectCanonical_ne _ _ _ hn]

theorem valuesOf_injectCanonical_link (req : Request) (h : HeaderList) :
    valuesOf (injectCanonical req h) "Link" =
      valuesOf h "Link" ++
        (if relTestStr ["canonical"] ((hget h "Link").getD "") then []
         else [canonicalEntry req]) := by
  unfold injectCanonical
  split
  · simp
  · rw [valuesOf_happend_self _ _ _ _ rfl]

theorem valuesOf_injectTerms_link (env : Env) (link1 : String) (h : HeaderList) :
    valuesOf (injectTerms env link1 h) "Link" =
      valuesOf h "Link" ++
        (if truthy env.TERMS_URL && !relTestStr ["terms"] link1 then
          [termsEntry (env.TERMS_URL.getD "")]
         else []) := by
  unfold injectTerms
  split
  · rw [valuesOf_happend_self _ _ _ _ rfl]
  · simp

theorem valuesOf_injectPayment_link (env : Env) (link1 : String) (h : HeaderList) :
    valuesOf (injectPayment env link1 h) "Link" =
      valuesOf h "Link" ++
        (if truthy env.PRICING_URL && !relTestStr ["pricing", "payment"] link1 then
          [paymentEntry (env.PRICING_URL.getD "")]
         else []) := by
  unfold injectPayment
  split
  · rw [valuesOf_happend_self _ _ _ _ rfl]
  · simp

/-! ## Properties of the relation-detection matcher -/

theorem matchWordCI_append (w a b : List Char) (hm : matchWordCI w a = true) :
    matchWordCI w (a ++ b) = true := by
  induction w generalizing a with
  | nil => rfl
  | cons p ps ih =>
    cases a with
    | nil => simp [matchWordCI] at hm
    | cons c cs =>
      simp only [matchWordCI, Bool.and_eq_true] at hm
      simp only [List.cons_append, matchWordCI, Bool.and_eq_true]
      exact ⟨hm.1, ih cs hm.2⟩

theorem matchWordCI_length (w a : List Char) (hm : matchWordCI w a = true) :
    w.length ≤ a.length := by
  induction w generalizing a with
  | nil => simp
  | cons p ps ih =>
    cases a with
    | nil => simp [matchWordCI] at hm
    | cons c cs =>
      simp only [matchWordCI, Bool.and_eq_true] at hm
      have := ih cs hm.2
      simp only [List.length_cons]
      omega

theorem any_matchWordCI_append (ws : List (List Char)) (a b : List Char)
    (hm : ws.any (fun w => matchWordCI w a) = true) :
    ws.any (fun w => matchWordCI w (a ++ b)) = true := by
  rcases List.any_eq_true.mp hm with ⟨w, hw, hmw⟩
  exact List.any_eq_true.mpr ⟨w, hw, matchWordCI_append w a b hmw⟩

theorem relAfterWS_append (ws : List (List Char)) (d post : List Char)
    (hm : relAfterWS ws d = true) :
    relAfterWS ws (d ++ post) = true := by
  unfold relAfterWS at hm ⊢
  simp only [Bool.and_eq_true] at hm ⊢
  obtain ⟨h1, h2⟩ := hm
  have hlen : 4 ≤ d.length := by
    have := matchWordCI_length _ _ h1
    simpa using this
  refine ⟨matchWordCI_append _ _ _ h1, ?_⟩
  rw [List.drop_append_of_le_length hlen]
  rcases Bool.or_eq_true _ _ |>.mp h2 with hq | hd
  · cases hdr : d.drop 4 with
    | nil => rw [hdr] at hq; simp at hq
    | cons c t =>
      rw [hdr] at hq
      simp only [Bool.and_eq_true, beq_iff_eq] at hq
      obtain ⟨rfl, hany⟩ := hq
      apply Bool.or_eq_true _ _ |>.mpr
      left
      simp only [List.cons_append, Bool.and_eq_true, beq_iff_eq]
      exact ⟨trivial, any_matchWordCI_append ws t post hany⟩
  · exact Bool.or_eq_true _ _ |>.mpr (Or.inr (any_matchWordCI_append ws _ post hd))

theorem relMatchAt_append (ws : List (List Char)) (cs post : List Char)
    (hm : relMatchAt ws cs = true) :
    relMatchAt ws (cs ++ post) = true := by
  cases cs with
  | nil => simp [relMatchAt] at hm
  | cons c t =>
    simp only [relMatchAt, Bool.and_eq_true, beq_iff_eq] at hm
    obtain ⟨rfl, hrest⟩ := hm
    simp only [List.cons_append, relMatchAt, Bool.and_eq_true, beq_iff_eq]
    refine ⟨trivial, ?_⟩
    have hne : t.dropWhile isJsWS ≠ [] := by
      intro h0
      unfold relAfterWS at hrest
      rw [h0] at hrest
      simp [matchWordCI] at hrest
    rw [List.dropWhile_append]
    have hie : (t.dropWhile isJsWS).isEmpty = false := by
      cases hdw : t.dropWhile isJsWS with
      | nil => exact absurd hdw hne
      | cons a u => rfl
    rw [hie]
    simp only [Bool.false_eq_true, if_false]
    exact relAfterWS_append ws _ post hrest

theorem relSearch_append (ws : List (List Char)) (cs post : List Char)
    (hm : relSearch ws cs = true) :
    relSearch ws (cs ++ post) = true := by
  induction cs with
  | nil => simp [relSearch] at hm
  | cons c t ih =>
    simp only [relSearch, Bool.or_eq_true] at hm
    simp only [List.cons_append, relSearch, Bool.or_eq_true]
    rcases hm with hm | hm
    · exact Or.inl (relMatchAt_append ws (c :: t) post hm)
    · exact Or.inr (ih hm)

theorem relSearch_prepend (ws : List (List Char)) (pre cs : List Char)
    (hm : relSearch ws cs = true) :
    relSearch ws (pre ++ cs) = true := by
  induction pre with
  | nil => simpa using hm
  | cons c t ih =>
    simp only [List.cons_append, relSearch, Bool.or_eq_true]
    exact Or.inr ih

theorem relTestStr_append (ws : List String) (a b : String) (hm : relTestStr ws a = true) :
    relTestStr ws (a ++ b) = true := by
  unfold relTestStr at hm ⊢
  rw [String.data_append]
  exact relSearch_append _ _ _ hm

theorem relTestStr_prepend (ws : List String) (a b : String) (hm : relTestStr ws b = true) :
    relTestStr ws (a ++ b) = true := by
  unfold relTestStr at hm ⊢
  rw [String.data_append]
  exact relSearch_prepend _ _ _ hm

theorem relTest_joinVals (ws : List String) (v : String) (vs : List String)
    (hv : v ∈ vs) (hm : relTestStr ws v = true) :
    relTestStr ws (joinVals vs) = true := by
  induction vs with
  | nil => cases hv
  | cons a t ih =>
    rcases List.mem_cons.mp hv with rfl | hv2
    · cases t with
      | nil => simpa [joinVals] using hm
      | cons b u =>
        show relTestStr ws (v ++ ", " ++ joinVals (b :: u)) = true
        exact relTestStr_append _ _ _ (relTestStr_append _ _ _ hm)
    · cases t with
      | nil => cases hv2
      | cons b u =>
        show relTestStr ws (a ++ ", " ++ joinVals (b :: u)) = true
        exact relTestStr_prepend _ _ _ (ih hv2)

theorem relTest_hget_of_mem (ws : List String) (h : HeaderList) (v : String)
    (hv : v ∈ valuesOf h "Link") (hm : relTestStr ws v = true) :
    relTestStr ws ((hget h "Link").getD "") = true := by
  have hne : valuesOf h "Link" ≠ [] := by
    intro h0
    rw [h0] at hv
    cases hv
  rw [hget_eq_join _ _ hne]
  exact relTest_joinVals ws v _ hv hm

theorem relTest_entries_false (ws : List String) (h : HeaderList)
    (hm : relTestStr ws ((hget h "Link").getD "") = false) :
    ∀ v ∈ valuesOf h "Link", relTestStr ws v = false := by
  intro v hv
  cases hb : relTestStr ws v with
  | false => rfl
  | true => rw [relTest_hget_of_mem ws h v hv hb] at hm; cases hm

theorem relTest_canonicalEntry (u : String) :
    relTestStr ["canonical"] ("<" ++ u ++ ">; rel=\"canonical\"") = true := by
  have h0 : relTestStr ["canonical"] ">; rel=\"canonical\"" = true := by decide
  exact relTestStr_prepend _ _ _ h0

/-! ## Pipeline unfolding lemmas -/

theorem workerFetch_pass (req : Request) (env : Env) (origin : HttpResponse) (ts : String)
    (ha : authRejects req env = false) :
    workerFetch req env origin ts =
      { response := mainPipeline req env origin ts, originCalled := true } := by
  simp [workerFetch, ha]

theorem workerFetch_reject (req : Request) (env : Env) (origin : HttpResponse) (ts : String)
    (ha : authRejects req env = true) :
    workerFetch req env origin ts =
      { response := unauthorizedResponse, originCalled := false } := by
  simp [workerFetch, ha]

theorem mainPipeline_status (req : Request) (env : Env) (origin : HttpResponse) (ts : String) :
    (mainPipeline req env origin ts).status = origin.status := rfl

theorem mainPipeline_statusText (req : Request) (env : Env) (origin : HttpResponse)
    (ts : String) : (mainPipeline req env origin ts).statusText = origin.statusText := rfl

theorem mainPipeline_body (req : Request) (env : Env) (origin : HttpResponse) (ts : String) :
    (mainPipeline req env origin ts).body = origin.body := rfl

theorem mainPipeline_headers_llm_key (req : Request) (env : Env) (origin : HttpResponse)
    (ts : String) (hllm : isLLMPath req.pathname = true)
    (hkey : truthy env.RECEIPT_HMAC_KEY = true) :
    (mainPipeline req env origin ts).headers =
      hset (injectLinks req env (normalizeHeaders origin.headers)) "AI-Usage-Receipt"
        (receiptValue req env origin (injectLinks req env (normalizeHeaders origin.headers))
          ts) := by
  simp [mainPipeline, hllm, hkey]

theorem mainPipeline_headers_llm_nokey (req : Request) (env : Env) (origin : HttpResponse)
    (ts : String) (hllm : isLLMPath req.pathname = true)
    (hkey : truthy env.RECEIPT_HMAC_KEY = false) :
    (mainPipeline req env origin ts).headers =
      injectLinks req env (normalizeHeaders origin.headers) := by
  simp [mainPipeline, hllm, hkey]

theorem mainPipeline_headers_notllm (req : Request) (env : Env) (origin : HttpResponse)
    (ts : String) (hllm : isLLMPath req.pathname = false) :
    (mainPipeline req env origin ts).headers =
      if (req.pathname == jsOr env.SITEMAP_PATH "/llm-sitemap.json")
          || (req.pathname == jsOr env.MANIFEST_PATH "/llms.txt") then
        normalizeHeaders origin.headers
      else origin.headers := by
  simp [mainPipeline, hllm]

theorem mainPipeline_unclassified (req : Request) (env : Env) (origin : HttpResponse)
    (ts : String) (hllm : isLLMPath req.pathname = false)
    (hs : (req.pathname == jsOr env.SITEMAP_PATH "/llm-sitemap.json") = false)
    (hm : (req.pathname == jsOr env.MANIFEST_PATH "/llms.txt") = false) :
    mainPipeline req env origin ts = origin := by
  simp [mainPipeline, hllm, hs, hm]

theorem hget_normalize_cc (h : HeaderList) :
    hget (normalizeHeaders h) "Cache-Control" = some ccFixed := by
  unfold normalizeHeaders
  rw [hget_hdelete_ne _ _ _ (by decide), hget_hdelete_ne _ _ _ (by decide),
    hget_hdelete_ne _ _ _ (by decide), hget_hset_self _ _ _ _ rfl]

theorem hget_normalize_pragma (h : HeaderList) :
    hget (normalizeHeaders h) "Pragma" = none := by
  unfold normalizeHeaders
  rw [hget_hdelete_ne _ _ _ (by decide), hget_hdelete_ne _ _ _ (by decide),
    hget_hdelete_self _ _ _ rfl]

theorem hget_normalize_expires (h : HeaderList) :
    hget (normalizeHeaders h) "Expires" = none := by
  unfold normalizeHeaders
  rw [hget_hdelete_ne _ _ _ (by decide), hget_hdelete_self _ _ _ rfl]

theorem hget_normalize_litespeed (h : HeaderList) :
    hget (normalizeHeaders h) "X-LiteSpeed-Cache-Control" = none := by
  unfold normalizeHeaders
  rw [hget_hdelete_self _ _ _ rfl]

theorem hget_mainPipeline_cacheName (req : Request) (env : Env) (origin : HttpResponse)
    (ts : String) (n : String)
    (hn1 : lowerStr "Link" ≠ lowerStr n) (hn2 : lowerStr "AI-Usage-Receipt" ≠ lowerStr n) :
    hget (mainPipeline req env origin ts).headers n =
      hget (if isLLMPath req.pathname
            || ((req.pathname == jsOr env.SITEMAP_PATH "/llm-sitemap.json")
              || (req.pathname == jsOr env.MANIFEST_PATH "/llms.txt")) then
          normalizeHeaders origin.headers
        else origin.headers) n := by
  cases hL : isLLMPath req.pathname with
  | true =>
    cases hK : truthy env.RECEIPT_HMAC_KEY with
    | true =>
      rw [mainPipeline_headers_llm_key req env origin ts hL hK,
        hget_hset_ne _ _ _ _ hn2, hget_injectLinks_ne _ _ _ _ hn1]
      simp
    | false =>
      rw [mainPipeline_headers_llm_nokey req env origin ts hL hK,
        hget_injectLinks_ne _ _ _ _ hn1]
      simp
  | false =>
    rw [mainPipeline_headers_notllm req env origin ts hL]
    simp

/-! ## The access guard -/

theorem mem_allowKeys_ne_empty (env : Env) (s : String) (hs : s ∈ allowKeys env) :
    (s == "") = false := by
  have := List.of_mem_filter hs
  cases hb : (s == "") with
  | false => rfl
  | true => rw [hb] at this; simp at this

theorem authOk_iff_mem (req : Request) (env : Env) :
    authOk req env = true ↔
      (bearerCred req ∈ allowKeys env ∨ xApiKey req ∈ allowKeys env) := by
  unfold authOk
  simp only [Bool.or_eq_true, Bool.and_eq_true, Bool.not_eq_true']
  constructor
  · rintro (⟨hb, hc⟩ | ⟨hb, hc⟩)
    · exact Or.inl (List.mem_of_elem_eq_true hc)
    · exact Or.inr (List.mem_of_elem_eq_true hc)
  · rintro (h | h)
    · exact Or.inl ⟨mem_allowKeys_ne_empty env _ h, List.elem_eq_true_of_mem h⟩
    · exact Or.inr ⟨mem_allowKeys_ne_empty env _ h, List.elem_eq_true_of_mem h⟩

theorem authRejects_of_not_ok (req : Request) (env : Env)
    (hllm : isLLMPath req.pathname = true) (hmode : env.AUTH_MODE = some "api_key")
    (hok : authOk req env = false) : authRejects req env = true := by
  simp [authRejects, hllm, hmode, hok]

theorem authRejects_false_of_ok (req : Request) (env : Env)
    (hok : authOk req env = true) : authRejects req env = false := by
  simp [authRejects, hok]

/-! ## Claim theorems -/

/-- C3 (confirmed): under AUTH_MODE=api_key, an LLM-endpoint request with no
valid credential is answered with status exactly 401, an empty body, and
WWW-Authenticate: Bearer realm="tct", and the origin fetch is never
performed. -/
theorem C3_unauthorized_short_circuit (req : Request) (env : Env) (origin : HttpResponse)
    (ts : String)
    (hllm : isLLMPath req.pathname = true)
    (hmode : env.AUTH_MODE = some "api_key")
    (hok : authOk req env = false) :
    (workerFetch req env origin ts).response.status = 401
    ∧ (workerFetch req env origin ts).response.body = []
    ∧ hget (workerFetch req env origin ts).response.headers "WWW-Authenticate"
        = some "Bearer realm=\"tct\""
    ∧ (workerFetch req env origin ts).originCalled = false := by
  rw [workerFetch_reject req env origin ts (authRejects_of_not_ok req env hllm hmode hok)]
  exact ⟨rfl, rfl, by decide, rfl⟩

/-- Witness for C3 at a concrete credential-free request. -/
theorem C3_unauthorized_short_circuit_witness :
    isLLMPath c3Req.pathname = true
    ∧ c2Env.AUTH_MODE = some "api_key"
    ∧ authOk c3Req c2Env = false
    ∧ ((workerFetch c3Req c2Env cOrigin "2025-01-01T00:00:00.000Z").response.status = 401
      ∧ (workerFetch c3Req c2Env cOrigin "2025-01-01T00:00:00.000Z").response.body = []
      ∧ hget (workerFetch c3Req c2Env cOrigin "2025-01-01T00:00:00.000Z").response.headers
          "WWW-Authenticate" = some "Bearer realm=\"tct\""
      ∧ (workerFetch c3Req c2Env cOrigin "2025-01-01T00:00:00.000Z").originCalled = false) :=
  ⟨by decide, rfl, by decide,
    C3_unauthorized_short_circuit c3Req c2Env cOrigin "2025-01-01T00:00:00.000Z"
      (by decide) rfl (by decide)⟩

/-- C2 counterexample: with API_KEYS=key1 and Authorization "Bearer  key1"
(two spaces), the trimmed bearer credential is in the allow-list, yet the
guard rejects the request with a 401 - the code never trims the credential,
refuting the claim's "after trimming" acceptance condition. -/
theorem C2_trimming_counterexample :
    trimStr (bearerCred c2Req) ∈ allowKeys c2Env
    ∧ authOk c2Req c2Env = false
    ∧ (workerFetch c2Req c2Env cOrigin "2025-01-01T00:00:00.000Z").response.status = 401
    ∧ (workerFetch c2Req c2Env cOrigin "2025-01-01T00:00:00.000Z").originCalled = false := by
  decide

/-- C2 (amended): under AUTH_MODE=api_key on an LLM path, the guard admits the
request (equivalently, the origin is fetched) iff the untrimmed bearer
remainder or the untrimmed X-API-Key value literally equals one of the
trimmed, non-empty allow-list entries. -/
theorem C2_guard_accept_iff (req : Request) (env : Env) (origin : HttpResponse) (ts : String)
    (hllm : isLLMPath req.pathname = true)
    (hmode : env.AUTH_MODE = some "api_key") :
    (workerFetch req env origin ts).originCalled = true
      ↔ (bearerCred req ∈ allowKeys env ∨ xApiKey req ∈ allowKeys env) := by
  rw [← authOk_iff_mem req env]
  cases hok : authOk req env with
  | true =>
    rw [workerFetch_pass req env origin ts (authRejects_false_of_ok req env hok)]
  | false =>
    rw [workerFetch_reject req env origin ts (authRejects_of_not_ok req env hllm hmode hok)]

/-- Witness for the amended C2 at a concrete valid bearer credential. -/
theorem C2_guard_accept_iff_witness :
    isLLMPath c2wReq.pathname = true
    ∧ c2Env.AUTH_MODE = some "api_key"
    ∧ ((workerFetch c2wReq c2Env cOrigin "2025-01-01T00:00:00.000Z").originCalled = true
        ↔ (bearerCred c2wReq ∈ allowKeys c2Env ∨ xApiKey c2wReq ∈ allowKeys c2Env)) :=
  ⟨by decide, rfl,
    C2_guard_accept_iff c2wReq c2Env cOrigin "2025-01-01T00:00:00.000Z" (by decide) rfl⟩

/-- C9 (confirmed): a request whose path is not an LLM endpoint, not the
sitemap path and not the manifest path is answered with the origin response
unchanged - same status, status text, headers and body - and the origin is
fetched. -/
theorem C9_unclassified_passthrough (req : Request) (env : Env) (origin : HttpResponse)
    (ts : String)
    (h1 : isLLMPath req.pathname = false)
    (h2 : (req.pathname == jsOr env.SITEMAP_PATH "/llm-sitemap.json") = false)
    (h3 : (req.pathname == jsOr env.MANIFEST_PATH "/llms.txt") = false) :
    (workerFetch req env origin ts).response = origin
    ∧ (workerFetch req env origin ts).originCalled = true := by
  have ha : authRejects req env = false := by simp [authRejects, h1]
  rw [workerFetch_pass req env origin ts ha]
  exact ⟨mainPipeline_unclassified req env origin ts h1 h2 h3, rfl⟩

/-- Witness for C9 at a concrete unclassified path. -/
theorem C9_unclassified_passthrough_witness :
    isLLMPath c9Req.pathname = false
    ∧ (c9Req.pathname == jsOr cEnvEmpty.SITEMAP_PATH "/llm-sitemap.json") = false
    ∧ (c9Req.pathname == jsOr cEnvEmpty.MANIFEST_PATH "/llms.txt") = false
    ∧ ((workerFetch c9Req cEnvEmpty c7Origin "2025-01-01T00:00:00.000Z").response = c7Origin
      ∧ (workerFetch c9Req cEnvEmpty c7Origin "2025-01-01T00:00:00.000Z").originCalled
          = true) :=
  ⟨by decide, by decide, by decide,
    C9_unclassified_passthrough c9Req cEnvEmpty c7Origin "2025-01-01T00:00:00.000Z"
      (by decide) (by decide) (by decide)⟩

/-- C7 (confirmed, for requests that reach the origin - the 401 short-circuit
path, covered by C3, produces no origin-derived response): every LLM, sitemap
or manifest response carries exactly the fixed Cache-Control directive, and
Pragma, Expires and X-LiteSpeed-Cache-Control are absent, whatever the origin
sent. -/
theorem C7_cache_normalization (req : Request) (env : Env) (origin : HttpResponse)
    (ts : String)
    (hcls : isLLMPath req.pathname = true
      ∨ (req.pathname == jsOr env.SITEMAP_PATH "/llm-sitemap.json") = true
      ∨ (req.pathname == jsOr env.MANIFEST_PATH "/llms.txt") = true)
    (hauth : authRejects req env = false) :
    hget (workerFetch req env origin ts).response.headers "Cache-Control" = some ccFixed
    ∧ hget (workerFetch req env origin ts).response.headers "Pragma" = none
    ∧ hget (workerFetch req env origin ts).response.headers "Expires" = none
    ∧ hget (workerFetch req env origin ts).response.headers "X-LiteSpeed-Cache-Control"
        = none := by
  rw [workerFetch_pass req env origin ts hauth]
  have hcb : (isLLMPath req.pathname
      || ((req.pathname == jsOr env.SITEMAP_PATH "/llm-sitemap.json")
        || (req.pathname == jsOr env.MANIFEST_PATH "/llms.txt"))) = true := by
    rcases hcls with h | h | h <;> simp [h]
  refine ⟨?_, ?_, ?_, ?_⟩ <;>
    rw [hget_mainPipeline_cacheName req env origin ts _ (by decide) (by decide), hcb] <;>
    simp [hget_normalize_cc, hget_normalize_pragma, hget_normalize_expires,
      hget_normalize_litespeed]

/-- Witness for C7 at the sitemap path against a cache-noisy origin. -/
theorem C7_cache_normalization_witness :
    (isLLMPath c7Req.pathname = true
      ∨ (c7Req.pathname == jsOr cEnvEmpty.SITEMAP_PATH "/llm-sitemap.json") = true
      ∨ (c7Req.pathname == jsOr cEnvEmpty.MANIFEST_PATH "/llms.txt") = true)
    ∧ authRejects c7Req cEnvEmpty = false
    ∧ (hget (workerFetch c7Req cEnvEmpty c7Origin "2025-01-01T00:00:00.000Z").response.headers
          "Cache-Control" = some ccFixed
      ∧ hget (workerFetch c7Req cEnvEmpty c7Origin "2025-01-01T00:00:00.000Z").response.headers
          "Pragma" = none
      ∧ hget (workerFetch c7Req cEnvEmpty c7Origin "2025-01-01T00:00:00.000Z").response.headers
          "Expires" = none
      ∧ hget (workerFetch c7Req cEnvEmpty c7Origin "2025-01-01T00:00:00.000Z").response.headers
          "X-LiteSpeed-Cache-Control" = none) :=
  ⟨Or.inr (Or.inl (by decide)), by decide,
    C7_cache_normalization c7Req cEnvEmpty c7Origin "2025-01-01T00:00:00.000Z"
      (Or.inr (Or.inl (by decide))) (by decide)⟩

/-- C10 (confirmed): with a signing key configured, every LLM-endpoint
response that reaches the origin carries an AI-Usage-Receipt header, for every
origin status; and for every status other than 200 the receipt's byte count
is 0. -/
theorem C10_receipt_every_status (req : Request) (env : Env) (origin : HttpResponse)
    (ts : String)
    (hllm : isLLMPath req.pathname = true)
    (hauth : authRejects req env = false)
    (hkey : truthy env.RECEIPT_HMAC_KEY = true) :
    hget (workerFetch req env origin ts).response.headers "AI-Usage-Receipt"
      = some (receiptValue req env origin
          (injectLinks req env (normalizeHeaders origin.headers)) ts)
    ∧ (origin.status ≠ 200 →
        receiptBytes origin (injectLinks req env (normalizeHeaders origin.headers)) = 0) := by
  constructor
  · rw [workerFetch_pass req env origin ts hauth,
      mainPipeline_headers_llm_key req env origin ts hllm hkey,
      hget_hset_self _ _ _ _ rfl]
  · intro hs
    unfold receiptBytes
    by_cases h304 : origin.status = 304
    · simp [h304]
    · have hb1 : (origin.status == 304) = false := by simp [h304]
      have hb2 : (origin.status == 200) = false := by simp [hs]
      simp [hb1, hb2]

/-- Witness for C10 at a 503 origin response. -/
theorem C10_receipt_every_status_witness :
    isLLMPath c4Req.pathname = true
    ∧ authRejects c4Req c1Env = false
    ∧ truthy c1Env.RECEIPT_HMAC_KEY = true
    ∧ (hget (workerFetch c4Req c1Env c10Origin "2025-01-01T00:00:00.000Z").response.headers
          "AI-Usage-Receipt"
        = some (receiptValue c4Req c1Env c10Origin
            (injectLinks c4Req c1Env (normalizeHeaders c10Origin.headers))
            "2025-01-01T00:00:00.000Z")
      ∧ (c10Origin.status ≠ 200 →
          receiptBytes c10Origin
            (injectLinks c4Req c1Env (normalizeHeaders c10Origin.headers)) = 0)) :=
  ⟨by decide, by decide, by decide,
    C10_receipt_every_status c4Req c1Env c10Origin "2025-01-01T00:00:00.000Z"
      (by decide) (by decide) (by decide)⟩

/-- C8 (confirmed): with a signing key configured, a 304 origin response
yields a receipt whose byte count is 0, regardless of any Content-Length
header present on the response. -/
theorem C8_304_bytes_zero (req : Request) (env : Env) (origin : HttpResponse)
    (ts clv : String)
    (hllm : isLLMPath req.pathname = true)
    (hauth : authRejects req env = false)
    (hkey : truthy env.RECEIPT_HMAC_KEY = true)
    (h304 : origin.status = 304)
    (_hcl : hget origin.headers "Content-Length" = some clv) :
    receiptBytes origin (injectLinks req env (normalizeHeaders origin.headers)) = 0
    ∧ hget (workerFetch req env origin ts).response.headers "AI-Usage-Receipt"
        = some (receiptValue req env origin
            (injectLinks req env (normalizeHeaders origin.headers)) ts) := by
  constructor
  · unfold receiptBytes
    simp [h304]
  · rw [workerFetch_pass req env origin ts hauth,
      mainPipeline_headers_llm_key req env origin ts hllm hkey,
      hget_hset_self _ _ _ _ rfl]

/-- Witness for C8 at a 304 origin response carrying Content-Length 999. -/
theorem C8_304_bytes_zero_witness :
    isLLMPath c4Req.pathname = true
    ∧ authRejects c4Req c1Env = false
    ∧ truthy c1Env.RECEIPT_HMAC_KEY = true
    ∧ c8Origin.status = 304
    ∧ hget c8Origin.headers "Content-Length" = some "999"
    ∧ (receiptBytes c8Origin (injectLinks c4Req c1Env (normalizeHeaders c8Origin.headers)) = 0
      ∧ hget (workerFetch c4Req c1Env c8Origin "2025-01-01T00:00:00.000Z").response.headers
          "AI-Usage-Receipt"
        = some (receiptValue c4Req c1Env c8Origin
            (injectLinks c4Req c1Env (normalizeHeaders c8Origin.headers))
            "2025-01-01T00:00:00.000Z")) :=
  ⟨by decide, by decide, by decide, rfl, by decide,
    C8_304_bytes_zero c4Req c1Env c8Origin "2025-01-01T00:00:00.000Z" "999"
      (by decide) (by decide) (by decide) rfl (by decide)⟩

/-- C4 counterexample: a 200 origin response with Content-Length "abc" (present
but unparseable) and a 5-byte body gets receipt bytes 0 - the code does not
fall back to buffering the body, refuting the claimed fallback. -/
theorem C4_unparseable_counterexample :
    hget c4Origin.headers "Content-Length" = some "abc"
    ∧ parseIntJS "abc" = none
    ∧ c4Origin.body.length = 5
    ∧ receiptBytes c4Origin (injectLinks c4Req c1Env (normalizeHeaders c4Origin.headers)) = 0
    ∧ receiptBytes c4Origin (injectLinks c4Req c1Env (normalizeHeaders c4Origin.headers))
        ≠ Int.ofNat c4Origin.body.length := by
  decide

/-- C4 (amended): on a 200 response whose Content-Length is present, non-empty
and unparseable, the receipt's byte count is 0 (parseInt failure coerces to 0);
the body-buffering fallback applies only when the header is absent or empty. -/
theorem C4_unparseable_bytes_zero (req : Request) (env : Env) (origin : HttpResponse)
    (clv : String)
    (h200 : origin.status = 200)
    (hcl : hget (injectLinks req env (normalizeHeaders origin.headers)) "Content-Length"
        = some clv)
    (hne : (clv == "") = false)
    (hbad : parseIntJS clv = none) :
    receiptBytes origin (injectLinks req env (normalizeHeaders origin.headers)) = 0 := by
  unfold receiptBytes
  rw [h200, hcl]
  simp [hne, hbad]

/-- Witness for the amended C4 at Content-Length "abc". -/
theorem C4_unparseable_bytes_zero_witness :
    c4Origin.status = 200
    ∧ hget (injectLinks c4Req c1Env (normalizeHeaders c4Origin.headers)) "Content-Length"
        = some "abc"
    ∧ ("abc" == "") = false
    ∧ parseIntJS "abc" = none
    ∧ receiptBytes c4Origin (injectLinks c4Req c1Env (normalizeHeaders c4Origin.headers))
        = 0 :=
  ⟨rfl, by decide, rfl, by decide,
    C4_unparseable_bytes_zero c4Req c1Env c4Origin "abc" rfl (by decide) rfl (by decide)⟩

/-- C1 (confirmed): with a signing key configured, a 200 origin response with
Content-Length 100, ETag "abc" and request header X-AI-Contract: pilotX yields
an AI-Usage-Receipt equal to the exact payload
`contract=pilotX; status=200; bytes=100; etag="abc"; ts=<ts>` followed by
`; sig=<b64>`, where b64 is standard padded base64 of HMAC-SHA256 over that
exact payload string keyed by the configured secret. -/
theorem C1_receipt_payload_and_signature (req : Request) (env : Env) (origin : HttpResponse)
    (ts key : String)
    (hllm : isLLMPath req.pathname = true)
    (hauth : authRejects req env = false)
    (hkey : env.RECEIPT_HMAC_KEY = some key)
    (hkne : (key == "") = false)
    (hcontract : hget req.headers "X-AI-Contract" = some "pilotX")
    (hstatus : origin.status = 200)
    (hcl : hget origin.headers "Content-Length" = some "100")
    (hetag : hget origin.headers "ETag" = some "\"abc\"") :
    hget (workerFetch req env origin ts).response.headers "AI-Usage-Receipt"
      = some ("contract=pilotX; status=200; bytes=100; etag=\"abc\"; ts=" ++ ts
          ++ "; sig=" ++ base64Encode (hmacSha256 (strBytes key)
            (strBytes ("contract=pilotX; status=200; bytes=100; etag=\"abc\"; ts="
              ++ ts)))) := by
  have htr : truthy env.RECEIPT_HMAC_KEY = true := by
    rw [hkey]
    simp [truthy, hkne]
  set H2 := injectLinks req env (normalizeHeaders origin.headers) with hH2
  have hgetCL : hget H2 "Content-Length" = some "100" := by
    rw [hH2, hget_injectLinks_ne _ _ _ _ (by decide),
      hget_normalize_ne _ _ (by decide) (by decide) (by decide) (by decide), hcl]
  have hgetET : hget H2 "ETag" = some "\"abc\"" := by
    rw [hH2, hget_injectLinks_ne _ _ _ _ (by decide),
      hget_normalize_ne _ _ (by decide) (by decide) (by decide) (by decide), hetag]
  have hbytes : receiptBytes origin H2 = 100 := by
    unfold receiptBytes
    rw [hstatus, hgetCL]
    simp
    decide
  have hpay : receiptPayload req origin H2 ts
      = "contract=pilotX; status=200; bytes=100; etag=\"abc\"; ts=" ++ ts := by
    simp only [receiptPayload]
    rw [hgetET, hcontract, hstatus, hbytes]
    rfl
  rw [workerFetch_pass req env origin ts hauth,
    mainPipeline_headers_llm_key req env origin ts hllm htr, ← hH2,
    hget_hset_self _ _ _ _ rfl]
  simp only [receiptValue]
  rw [hpay, hkey]
  rfl

/-- Witness for C1 at the concrete testkey scenario of the spec. -/
theorem C1_receipt_payload_and_signature_witness :
    isLLMPath c1Req.pathname = true
    ∧ authRejects c1Req c1Env = false
    ∧ c1Env.RECEIPT_HMAC_KEY = some "testkey"
    ∧ ("testkey" == "") = false
    ∧ hget c1Req.headers "X-AI-Contract" = some "pilotX"
    ∧ c1Origin.status = 200
    ∧ hget c1Origin.headers "Content-Length" = some "100"
    ∧ hget c1Origin.headers "ETag" = some "\"abc\""
    ∧ hget (workerFetch c1Req c1Env c1Origin "2025-01-01T00:00:00.000Z").response.headers
          "AI-Usage-Receipt"
        = some ("contract=pilotX; status=200; bytes=100; etag=\"abc\"; ts="
              ++ "2025-01-01T00:00:00.000Z"
            ++ "; sig=" ++ base64Encode (hmacSha256 (strBytes "testkey")
              (strBytes ("contract=pilotX; status=200; bytes=100; etag=\"abc\"; ts="
                ++ "2025-01-01T00:00:00.000Z")))) :=
  ⟨by decide, by decide, rfl, rfl, by decide, rfl, by decide, by decide,
    C1_receipt_payload_and_signature c1Req c1Env c1Origin "2025-01-01T00:00:00.000Z" "testkey"
      (by decide) (by decide) rfl rfl (by decide) rfl (by decide) (by decide)⟩

/-- On LLM paths, the Link entries of the final response are those of the
injector's output: the receipt set touches only AI-Usage-Receipt. -/
theorem valuesOf_link_final (req : Request) (env : Env) (origin : HttpResponse) (ts : String)
    (hllm : isLLMPath req.pathname = true) :
    valuesOf (mainPipeline req env origin ts).headers "Link"
      = valuesOf (injectLinks req env (normalizeHeaders origin.headers)) "Link" := by
  cases hK : truthy env.RECEIPT_HMAC_KEY with
  | true =>
    rw [mainPipeline_headers_llm_key req env origin ts hllm hK,
      valuesOf_hset_ne _ _ _ _ (by decide)]
  | false => rw [mainPipeline_headers_llm_nokey req env origin ts hllm hK]

/-- The Link entries the injector produces: original entries, then the
conditional canonical, terms and payment appends. -/
theorem valuesOf_injectLinks (req : Request) (env : Env) (h : HeaderList) :
    valuesOf (injectLinks req env h) "Link"
      = ((valuesOf h "Link"
          ++ (if relTestStr ["canonical"] ((hget h "Link").getD "") then []
              else [canonicalEntry req]))
        ++ (if truthy env.TERMS_URL
              && !relTestStr ["terms"] ((hget (injectCanonical req h) "Link").getD "") then
            [termsEntry (env.TERMS_URL.getD "")]
           else []))
        ++ (if truthy env.PRICING_URL
              && !relTestStr ["pricing", "payment"]
                  ((hget (injectCanonical req h) "Link").getD "") then
            [paymentEntry (env.PRICING_URL.getD "")]
           else []) := by
  simp only [injectLinks]
  rw [valuesOf_injectPayment_link, valuesOf_injectTerms_link, valuesOf_injectCanonical_link]

theorem bool_and_left {a b : Bool} (h : (a && b) = true) : a = true := by
  cases a
  · simp at h
  · rfl

theorem filter_canonical_if_terms (env : Env) (b : Bool)
    (hb : b = true → truthy env.TERMS_URL = true)
    (hterms : truthy env.TERMS_URL = true →
        relTestStr ["canonical"] (termsEntry (env.TERMS_URL.getD "")) = false) :
    (if b then [termsEntry (env.TERMS_URL.getD "")] else []).filter
        (fun v => relTestStr ["canonical"] v) = [] := by
  cases b with
  | false => rfl
  | true => simp [List.filter, hterms (hb rfl)]

theorem filter_canonical_if_payment (env : Env) (b : Bool)
    (hb : b = true → truthy env.PRICING_URL = true)
    (hpay : truthy env.PRICING_URL = true →
        relTestStr ["canonical"] (paymentEntry (env.PRICING_URL.getD "")) = false) :
    (if b then [paymentEntry (env.PRICING_URL.getD "")] else []).filter
        (fun v => relTestStr ["canonical"] v) = [] := by
  cases b with
  | false => rfl
  | true => simp [List.filter, hpay (hb rfl)]

/-- C5 (confirmed, assuming the configured terms/pricing URLs do not
themselves contain text matching the canonical-relation pattern - true of any
ordinary URL): an LLM response without a pre-existing canonical Link relation
ends up with exactly one canonical Link entry, whose URI is the request's
scheme + host + path with the trailing llm segment replaced by "/". -/
theorem C5_single_canonical_entry (req : Request) (env : Env) (origin : HttpResponse)
    (ts : String)
    (hllm : isLLMPath req.pathname = true)
    (hauth : authRejects req env = false)
    (hnc : relTestStr ["canonical"] ((hget origin.headers "Link").getD "") = false)
    (hterms : truthy env.TERMS_URL = true →
        relTestStr ["canonical"] (termsEntry (env.TERMS_URL.getD "")) = false)
    (hpay : truthy env.PRICING_URL = true →
        relTestStr ["canonical"] (paymentEntry (env.PRICING_URL.getD "")) = false) :
    (valuesOf (workerFetch req env origin ts).response.headers "Link").filter
        (fun v => relTestStr ["canonical"] v)
      = [canonicalEntry req]
    ∧ canonicalEntry req
        = "<" ++ (req.protocol ++ "//" ++ req.host ++ stripLLM req.pathname)
          ++ ">; rel=\"canonical\"" := by
  refine ⟨?_, rfl⟩
  rw [workerFetch_pass req env origin ts hauth, valuesOf_link_final req env origin ts hllm,
    valuesOf_injectLinks,
    valuesOf_normalize_ne _ _ (by decide) (by decide) (by decide) (by decide),
    hget_normalize_ne _ _ (by decide) (by decide) (by decide) (by decide), hnc]
  have hfo : (valuesOf origin.headers "Link").filter (fun v => relTestStr ["canonical"] v)
      = [] := by
    apply List.filter_eq_nil_iff.mpr
    intro v hv
    simp [relTest_entries_false ["canonical"] origin.headers hnc v hv]
  have hfc : relTestStr ["canonical"] (canonicalEntry req) = true := by
    unfold canonicalEntry
    exact relTest_canonicalEntry (canonicalUrl req)
  simp only [Bool.false_eq_true, if_false]
  rw [List.filter_append, List.filter_append, List.filter_append, hfo,
    filter_canonical_if_terms env _ (fun h => bool_and_left h) hterms,
    filter_canonical_if_payment env _ (fun h => bool_and_left h) hpay]
  simp [List.filter, hfc]

/-- Witness for C5: policy links configured, origin without any Link header. -/
theorem C5_single_canonical_entry_witness :
    isLLMPath c4Req.pathname = true
    ∧ authRejects c4Req c5Env = false
    ∧ relTestStr ["canonical"] ((hget c5Origin.headers "Link").getD "") = false
    ∧ ((valuesOf (workerFetch c4Req c5Env c5Origin "2025-01-01T00:00:00.000Z").response.headers
            "Link").filter (fun v => relTestStr ["canonical"] v)
        = [canonicalEntry c4Req]
      ∧ canonicalEntry c4Req
          = "<" ++ (c4Req.protocol ++ "//" ++ c4Req.host ++ stripLLM c4Req.pathname)
            ++ ">; rel=\"canonical\"") :=
  ⟨by decide, by decide, by decide,
    C5_single_canonical_entry c4Req c5Env c5Origin "2025-01-01T00:00:00.000Z"
      (by decide) (by decide) (by decide) (fun _ => by decide) (fun _ => by decide)⟩

/-- C6 counterexample: an origin response already carrying two canonical Link
entries keeps both - the final response has two entries matching the
canonical-relation pattern, refuting "at most one relation of each type is
present after injection". -/
theorem C6_duplicate_origin_counterexample :
    relTestStr ["canonical"] ((hget c6Origin.headers "Link").getD "") = true
    ∧ canonicalLinkCount
        (workerFetch c4Req cEnvEmpty c6Origin "2025-01-01T00:00:00.000Z").response.headers = 2
    ∧ ¬(canonicalLinkCount
        (workerFetch c4Req cEnvEmpty c6Origin "2025-01-01T00:00:00.000Z").response.headers
          ≤ 1) := by
  decide

/-- C6 (amended): the injector never adds a canonical entry when the origin's
Link value already matches the canonical pattern, and the origin's Link
entries are preserved verbatim; only (canonical-free) terms/payment entries
may be appended. Pre-existing duplicates therefore persist, so "at most one
relation of each type" holds only for what the injector itself adds. -/
theorem C6_canonical_not_duplicated (req : Request) (env : Env) (origin : HttpResponse)
    (ts : String)
    (hllm : isLLMPath req.pathname = true)
    (hauth : authRejects req env = false)
    (hcanon : relTestStr ["canonical"] ((hget origin.headers "Link").getD "") = true)
    (hterms : truthy env.TERMS_URL = true →
        relTestStr ["canonical"] (termsEntry (env.TERMS_URL.getD "")) = false)
    (hpay : truthy env.PRICING_URL = true →
        relTestStr ["canonical"] (paymentEntry (env.PRICING_URL.getD "")) = false) :
    ∃ extra,
      valuesOf (workerFetch req env origin ts).response.headers "Link"
        = valuesOf origin.headers "Link" ++ extra
      ∧ extra.filter (fun v => relTestStr ["canonical"] v) = [] := by
  rw [workerFetch_pass req env origin ts hauth, valuesOf_link_final req env origin ts hllm,
    valuesOf_injectLinks,
    valuesOf_normalize_ne _ _ (by decide) (by decide) (by decide) (by decide),
    hget_normalize_ne _ _ (by decide) (by decide) (by decide) (by decide), hcanon]
  refine ⟨(if truthy env.TERMS_URL
        && !relTestStr ["terms"]
            ((hget (injectCanonical req (normalizeHeaders origin.headers)) "Link").getD "")
      then [termsEntry (env.TERMS_URL.getD "")] else [])
    ++ (if truthy env.PRICING_URL
        && !relTestStr ["pricing", "payment"]
            ((hget (injectCanonical req (normalizeHeaders origin.headers)) "Link").getD "")
      then [paymentEntry (env.PRICING_URL.getD "")] else []), ?_, ?_⟩
  · simp [List.append_assoc]
  · rw [List.filter_append,
      filter_canonical_if_terms env _ (fun h => bool_and_left h) hterms,
      filter_canonical_if_payment env _ (fun h => bool_and_left h) hpay]
    rfl

/-- Witness for the amended C6: origin with one canonical entry, policy links
configured. -/
theorem C6_canonical_not_duplicated_witness :
    isLLMPath c4Req.pathname = true
    ∧ authRejects c4Req c5Env = false
    ∧ relTestStr ["canonical"] ((hget c6wOrigin.headers "Link").getD "") = true
    ∧ (∃ extra,
        valuesOf (workerFetch c4Req c5Env c6wOrigin
            "2025-01-01T00:00:00.000Z").response.headers "Link"
          = valuesOf c6wOrigin.headers "Link" ++ extra
        ∧ extra.filter (fun v => relTestStr ["canonical"] v) = []) :=
  ⟨by decide, by decide, by decide,
    C6_canonical_not_duplicated c4Req c5Env c6wOrigin "2025-01-01T00:00:00.000Z"
      (by decide) (by decide) (by decide) (fun _ => by decide) (fun _ => by decide)⟩
